import Mathlib

/-!
Verification development for a hand-built DNS resolver.

Part 1 models the raw wire decoder `parse_response` of `custom_dns_resolver.py`:
bytes are `List Nat` (values < 256 in well-formed inputs), and every Python
`IndexError`/`struct.error` site is an `Option`-valued read; the surrounding
`try/except Exception: pass` of the source is modelled by returning the record
lists accumulated so far whenever a read fails.

Part 2 models the resolver engine of `src/custom_resolver.py` (cache, trace
events, recursive and iterative lookup, `resolve`).  Wall-clock time is an
abstract integer clock: each upstream reply advances it by the reply's rtt and
each timeout by the configured timeout.  Network nondeterminism is an oracle
indexed by the number of queries issued so far; the recursion-desired wire flag
only alters the outgoing query bit and is absorbed into the oracle.
-/

namespace Wire

abbrev Bytes := List Nat

/-- Big-endian 16-bit read, `struct.unpack("!H", data[i:i+2])`; `none` models the
`struct.error` raised on a short slice. -/
def read16 (d : Bytes) (i : Nat) : Option Nat :=
  match d.get? i, d.get? (i + 1) with
  | some hi, some lo => some (hi * 256 + lo)
  | _, _ => none

/-- Big-endian 32-bit read, the `I` field of `struct.unpack("!HHIH", ...)`. -/
def read32 (d : Bytes) (i : Nat) : Option Nat :=
  match read16 d i, read16 d (i + 2) with
  | some hi, some lo => some (hi * 65536 + lo)
  | _, _ => none

/-- QNAME skip loop of `parse_response`, with explicit step fuel:
`while data[offset] != 0: offset += data[offset] + 1` followed by `offset += 5`;
`none` models the `IndexError` on running off the end.  Each loop step moves
the offset forward by at least two while staying below `d.length`, so
`d.length + 1` steps (the fuel `qnameSkip` supplies) always suffice and the
fuel-exhausted branch is unreachable. -/
def qnameSkipF (d : Bytes) : Nat → Nat → Option Nat
  | 0, _ => none
  | fu + 1, off =>
    match d.get? off with
    | none => none
    | some 0 => some (off + 5)
    | some (v + 1) => qnameSkipF d fu (off + v + 2)

/-- QNAME skip of `parse_response`. -/
def qnameSkip (d : Bytes) (off : Nat) : Option Nat :=
  qnameSkipF d (d.length + 1) off

/-- Label loop of the per-record name skip, same shape as `qnameSkipF` but
advancing one byte past the terminator: `while data[offset] != 0:
offset += data[offset] + 1` then `offset += 1`. -/
def labelSkipF (d : Bytes) : Nat → Nat → Option Nat
  | 0, _ => none
  | fu + 1, off =>
    match d.get? off with
    | none => none
    | some 0 => some (off + 1)
    | some (v + 1) => labelSkipF d fu (off + v + 2)

/-- Per-record owner-name skip: a compression pointer (`data[offset] & 0xC0 == 0xC0`)
advances by two bytes, otherwise the label loop runs. -/
def skipRecName (d : Bytes) (off : Nat) : Option Nat :=
  match d.get? off with
  | none => none
  | some b => if b &&& 192 = 192 then some (off + 2) else labelSkipF d (d.length + 1) off

/-- Byte-transparent model of `bytes.decode(errors="ignore")`: each byte becomes
the character with that code point (exact for ASCII labels, which is all the
source ever produces). -/
def decodeBytes (bs : Bytes) : String := String.mk (bs.map Char.ofNat)

/-- NS RDATA label walk with step fuel (again always sufficient):
`while i < len(rdata) and rdata[i] != 0`, stopping early at a compression
pointer; this loop can raise no exception in the source. -/
def parseNsLabelsF (rdata : Bytes) : Nat → Nat → List String
  | 0, _ => []
  | fu + 1, i =>
    match rdata.get? i with
    | none => []
    | some 0 => []
    | some (v + 1) =>
      if (v + 1) &&& 192 = 192 then []
      else decodeBytes ((rdata.drop (i + 1)).take (v + 1)) ::
        parseNsLabelsF rdata fu (i + v + 2)

/-- NS RDATA label walk. -/
def parseNsLabels (rdata : Bytes) (i : Nat) : List String :=
  parseNsLabelsF rdata (rdata.length + 1) i

/-- Record loop of `parse_response`: one iteration per claimed record; any failed
read returns the `(ips, nss)` accumulated so far, exactly as the source's
`except Exception: pass` does. -/
def parseRecords (d : Bytes) : Nat → Nat → List String → List String → List String × List String
  | _, 0, ips, nss => (ips, nss)
  | off, n + 1, ips, nss =>
    match skipRecName d off with
    | none => (ips, nss)
    | some off1 =>
      match read16 d off1, read16 d (off1 + 2), read32 d (off1 + 4), read16 d (off1 + 8) with
      | some rtype, some _, some _, some rdlength =>
        let rdata := (d.drop (off1 + 10)).take rdlength
        let off2 := off1 + 10 + rdlength
        if rtype = 1 ∧ rdlength = 4 then
          parseRecords d off2 n (ips ++ [String.intercalate "." (rdata.map toString)]) nss
        else if rtype = 2 then
          parseRecords d off2 n ips (nss ++ [String.intercalate "." (parseNsLabels rdata 0)])
        else
          parseRecords d off2 n ips nss
      | _, _, _, _ => (ips, nss)

/-- Model of `parse_response(data)` from `custom_dns_resolver.py`: returns
`(A_record_IPs, next_NS_names)`; all exception sites fall back to the
accumulated lists, so the function is total. -/
def parse_response (d : Bytes) : List String × List String :=
  match read16 d 6, read16 d 8, read16 d 10 with
  | some ancount, some nscount, some arcount =>
    let total := ancount + nscount + arcount
    if total = 0 then ([], [])
    else
      match qnameSkip d 12 with
      | none => ([], [])
      | some off => parseRecords d off total [] []
  | _, _, _ => ([], [])

end Wire

/-- Truncated wire response: the header declares one question and two answer
records, but the input ends right after the first (complete) A record
`1.2.3.4`, so parsing the second record's header fails. -/
def truncatedTwoAnswers : Wire.Bytes :=
  [0, 0, 0, 0, 0, 1, 0, 2, 0, 0, 0, 0,
   0, 0, 1, 0, 1,
   0, 0, 1, 0, 1, 0, 0, 0, 60, 0, 4,
   1, 2, 3, 4]

namespace Resolver

/-- One resource-record set as the engine sees it: its record type code
(A = 1, NS = 2, AAAA = 28), the optional TTL (`getattr(rrset, "ttl", None)`
with the `isinstance(ttl, (int, float))` guard), and the per-record text the
loops extract (`rr.address` for address records, `rr.target.to_text()` for NS,
`rr.to_text()` in summaries). -/
structure RRset where
  rdtype : Nat
  ttl : Option Int
  items : List String
deriving DecidableEq, Repr

/-- Decoded upstream response: rcode plus the three record sections used by the
engine. -/
structure Message where
  rcode : Nat
  answer : List RRset
  authority : List RRset
  additional : List RRset
deriving DecidableEq, Repr

/-- Cached record set plus its absolute expiry instant (`CacheEntry` dataclass). -/
structure CacheEntry where
  rrsets : List RRset
  expiry : Int
deriving DecidableEq, Repr

/-- `CacheEntry.fresh`: `time.time() < self.expiry`, with the ambient clock made
an explicit argument. -/
def CacheEntry.fresh (e : CacheEntry) (now : Int) : Bool :=
  decide (now < e.expiry)

/-- One hop of a resolution attempt (`TraceEvent` dataclass); the float time
fields are modelled as integers. -/
structure TraceEvent where
  server : String
  step : String
  response : String
  rtt : Int
  total_time : Int
  cache_status : String
  event_time : Int
deriving DecidableEq, Repr

/-- The `self._cache` dict, as an association list with at most one binding per
key (maintained by `cacheInsert`). -/
abbrev Cache := List ((String × Nat) × CacheEntry)

/-- Dict read `self._cache.get(key)`. -/
def cacheGet (c : Cache) (k : String × Nat) : Option CacheEntry :=
  match c with
  | [] => none
  | (k', e) :: rest => if k' = k then some e else cacheGet rest k

/-- Dict removal `self._cache.pop(key, None)`. -/
def cachePop (c : Cache) (k : String × Nat) : Cache :=
  match c with
  | [] => []
  | (k', e) :: rest => if k' = k then cachePop rest k else (k', e) :: cachePop rest k

/-- Dict write `self._cache[key] = entry`. -/
def cacheInsert (c : Cache) (k : String × Nat) (e : CacheEntry) : Cache :=
  (k, e) :: cachePop c k

/-- ASCII model of `str.lower()` on one character. -/
def lowerChar (c : Char) : Char :=
  if 'A' ≤ c ∧ c ≤ 'Z' then Char.ofNat (c.toNat + 32) else c

/-- ASCII model of `str.lower()` (domain names in this system are ASCII). -/
def lowerString (s : String) : String := String.mk (s.data.map lowerChar)

/-- `_cache_key`: `(qname.lower(), qtype)`. -/
def cache_key (qname : String) (qtype : Nat) : String × Nat :=
  (lowerString qname, qtype)

/-- `_cache_lookup`: a hit returns (copies of) the stored record sets and leaves
the cache untouched; a stale entry is popped during this very call and the
lookup reports absent; an unknown key reports absent without touching the cache.
The returned pair is (result, cache afterwards). -/
def cache_lookup (c : Cache) (now : Int) (qname : String) (qtype : Nat) :
    Option (List RRset) × Cache :=
  match cacheGet c (cache_key qname qtype) with
  | none => (none, c)
  | some entry =>
    if entry.fresh now then (some entry.rrsets, c)
    else (none, cachePop c (cache_key qname qtype))

/-- Configuration fields of `ResolverServer` that the resolution pipeline reads. -/
structure ResolverServer where
  timeout : Int
  cache_enabled : Bool
  root_servers : List String
deriving DecidableEq, Repr

/-- `_cache_store`: disabled cache or no usable TTL or minimum TTL ≤ 0 leaves the
cache untouched; otherwise the record sets are stored under `(qname.lower(), qtype)`
with expiry `now + min TTL`. -/
def ResolverServer.cache_store (self : ResolverServer) (c : Cache) (now : Int)
    (qname : String) (qtype : Nat) (rrsets : List RRset) : Cache :=
  if self.cache_enabled then
    match (rrsets.filterMap RRset.ttl).min? with
    | none => c
    | some ttl =>
      if ttl ≤ 0 then c
      else cacheInsert c (cache_key qname qtype) ⟨rrsets, now + ttl⟩
  else c

/-- `_step_name`: phase label from the referral depth. -/
def step_name (depth : Nat) : String :=
  if depth = 0 then "Root"
  else if depth = 1 then "TLD"
  else "Authoritative"

/-- `dns.rcode.to_text` for the codes this system can meet. -/
def rcode_to_text (rc : Nat) : String :=
  if rc = 0 then "NOERROR"
  else if rc = 1 then "FORMERR"
  else if rc = 2 then "SERVFAIL"
  else if rc = 3 then "NXDOMAIN"
  else if rc = 4 then "NOTIMP"
  else if rc = 5 then "REFUSED"
  else toString rc

/-- Insertion step for the model of Python's `sorted` on strings. -/
def insertSorted (s : String) : List String → List String
  | [] => [s]
  | t :: ts => if t < s then t :: insertSorted s ts else s :: t :: ts

/-- Insertion sort, modelling `sorted` on a list of strings. -/
def sortStrings : List String → List String
  | [] => []
  | s :: ss => insertSorted s (sortStrings ss)

/-- `sorted({...})`: distinct elements in ascending order. -/
def sortedDedup (l : List String) : List String := sortStrings l.eraseDups

/-- `_summarize`: NXDOMAIN, ANSWER, REFERRAL plus the sorted distinct authority
record texts, or the textual rcode. -/
def summarize (m : Message) : String :=
  if m.rcode = 3 then "NXDOMAIN"
  else if m.answer ≠ [] then "ANSWER"
  else if m.authority ≠ [] then
    let ns_names := String.intercalate "," (sortedDedup (m.authority.flatMap RRset.items))
    if ns_names ≠ "" then "REFERRAL " ++ ns_names else "REFERRAL"
  else rcode_to_text m.rcode

/-- `_extract_glue_ips`: addresses of additional-section record sets whose type
is A or AAAA. -/
def extract_glue_ips (m : Message) : List String :=
  m.additional.flatMap (fun rs => if rs.rdtype = 1 ∨ rs.rdtype = 28 then rs.items else [])

/-- `_extract_ns_names`: targets of authority-section NS record sets. -/
def extract_ns_names (m : Message) : List String :=
  m.authority.flatMap (fun rs => if rs.rdtype = 2 then rs.items else [])

/-- `_resolve_ns_addresses`: each NS name is resolved with an A-type query
against the system resolver (`upstream name qtype`, `none` modelling the caught
NXDOMAIN/Timeout/NoNameservers exceptions); only A record sets of the answer
section contribute addresses. -/
def resolve_ns_addresses (upstream : String → Nat → Option (List RRset))
    (ns_names : List String) : List String :=
  ns_names.flatMap (fun n =>
    match upstream n 1 with
    | none => []
    | some answer => answer.flatMap (fun rs => if rs.rdtype = 1 then rs.items else []))

/-- Outcome of one `_query_server` call: a timeout/OSError, or a decoded reply
with its round-trip time. -/
inductive QueryResult where
  | timeout
  | reply (msg : Message) (rtt : Int)
deriving DecidableEq, Repr

/-- Mutable state threaded through `_iterative_lookup`: queries issued so far
(the oracle index), elapsed clock, accumulated trace, and `last_rcode`. -/
structure IterState where
  qi : Nat
  elapsed : Int
  trace : List TraceEvent
  last_rcode : Nat
deriving DecidableEq, Repr

/-- Result of the inner `for server in servers` loop: an early `return`, a
`break` with a fresh candidate set, or the `for ... else` exhaustion. -/
inductive InnerOut where
  | done (answers : List RRset) (rcode : Nat) (st : IterState)
  | newServers (servers : List String) (st : IterState)
  | exhausted (st : IterState)
deriving DecidableEq, Repr

/-- Inner loop of `_iterative_lookup` over the current candidate set.  A timeout
logs nothing and moves to the next server; a reply logs exactly one event, then
an answer or NXDOMAIN returns, glue addresses or resolved NS addresses become
the next candidate set, and otherwise the next server is tried. -/
def iterInner (self : ResolverServer) (oracle : Nat → QueryResult)
    (upstream : String → Nat → Option (List RRset)) (sn : String) :
    List String → IterState → InnerOut
  | [], st => .exhausted st
  | server :: rest, st =>
    match oracle st.qi with
    | .timeout =>
      iterInner self oracle upstream sn rest
        ⟨st.qi + 1, st.elapsed + self.timeout, st.trace, st.last_rcode⟩
    | .reply msg rtt =>
      let elapsed := st.elapsed + rtt
      let ev : TraceEvent := ⟨server, sn, summarize msg, rtt, elapsed, "MISS", elapsed⟩
      let st1 : IterState := ⟨st.qi + 1, elapsed, st.trace ++ [ev], msg.rcode⟩
      if msg.rcode = 0 ∧ msg.answer ≠ [] then .done msg.answer 0 st1
      else if msg.rcode = 3 then .done [] 3 st1
      else
        let glue := extract_glue_ips msg
        if glue ≠ [] then .newServers glue st1
        else
          let ns := extract_ns_names msg
          if ns = [] then iterInner self oracle upstream sn rest st1
          else
            let ips := resolve_ns_addresses upstream ns
            if ips ≠ [] then .newServers ips st1
            else iterInner self oracle upstream sn rest st1

/-- Outer `while servers:` loop of `_iterative_lookup`.  `fuel` counts loop
iterations still allowed; `none` means the loop is still running after `fuel`
iterations (the source has no such bound, so divergence of the source shows up
as `none` for every fuel). -/
def iterLoop (self : ResolverServer) (oracle : Nat → QueryResult)
    (upstream : String → Nat → Option (List RRset)) :
    Nat → List String → Nat → IterState → Option (List RRset × Nat × IterState)
  | 0, _, _, _ => none
  | fuel + 1, servers, depth, st =>
    if servers = [] then some ([], st.last_rcode, st)
    else
      match iterInner self oracle upstream (step_name depth) servers st with
      | .done answers rcode st1 => some (answers, rcode, st1)
      | .newServers servers1 st1 =>
        iterLoop self oracle upstream fuel servers1 (min (depth + 1) 2) st1
      | .exhausted st1 => some ([], st1.last_rcode, st1)

/-- `_iterative_lookup`: start from the configured root servers at depth 0 with
`last_rcode = SERVFAIL` (= 2), no trace, clock 0. -/
def iterative_lookup (self : ResolverServer) (oracle : Nat → QueryResult)
    (upstream : String → Nat → Option (List RRset)) (fuel : Nat) :
    Option (List RRset × Nat × IterState) :=
  iterLoop self oracle upstream fuel self.root_servers 0 ⟨0, 0, [], 2⟩

/-- Outcome of the opaque library call inside `_recursive_lookup`: a response
(answer section, rcode, duration) or one of the caught Timeout/NXDOMAIN
exceptions. -/
inductive RecOutcome where
  | ok (answer : List RRset) (rcode : Nat) (rtt : Int)
  | fail (rtt : Int)
deriving DecidableEq, Repr

/-- `_recursive_lookup`: one trace event for the whole attempt; the exception
path returns `([], NXDOMAIN)`. -/
def recursive_lookup (srv : String) : RecOutcome → List RRset × Nat × List TraceEvent
  | .ok ans rcode rtt =>
    (ans, rcode,
      [⟨srv, "Recursive", if ans ≠ [] then "ANSWER" else rcode_to_text rcode,
        rtt, rtt, "MISS", rtt⟩])
  | .fail rtt =>
    ([], 3, [⟨srv, "Recursive", "TIMEOUT_OR_NXDOMAIN", rtt, rtt, "MISS", rtt⟩])

/-- Result of `resolve`: answers, rcode, trace, cache-hit flag, and the cache
state afterwards (the source mutates `self._cache` in place). -/
structure ResolveOut where
  answers : List RRset
  rcode : Nat
  trace : List TraceEvent
  cacheHit : Bool
  cache : Cache
deriving DecidableEq, Repr

/-- Iterative tail of `resolve`: run `_iterative_lookup` and cache the answers
exactly when they are a non-empty NOERROR answer.  Wall-clock advance during
resolution is abstracted: the store uses the resolution start time `now`. -/
def iter_resolve (self : ResolverServer) (c : Cache) (now : Int)
    (qname : String) (qtype : Nat) (oracle : Nat → QueryResult)
    (upstream : String → Nat → Option (List RRset)) (fuel : Nat) :
    Option ResolveOut :=
  match iterative_lookup self oracle upstream fuel with
  | none => none
  | some (answers, rcode, st) =>
    some ⟨answers, rcode, st.trace, false,
      if answers ≠ [] ∧ rcode = 0 then self.cache_store c now qname qtype answers
      else c⟩

/-- `resolve`: cache hit short-circuits with a single zero-latency HIT event;
otherwise a requested recursive attempt is returned only when it produced a
non-empty NOERROR answer (which is then cached), and every other case falls
through to the iterative path. -/
def ResolverServer.resolve (self : ResolverServer) (c : Cache) (now : Int)
    (qname : String) (qtype : Nat) (recursion_requested : Bool)
    (rec : RecOutcome) (recServer : String) (oracle : Nat → QueryResult)
    (upstream : String → Nat → Option (List RRset)) (fuel : Nat) :
    Option ResolveOut :=
  match cache_lookup c now qname qtype with
  | (some cached, c1) =>
    some ⟨cached, 0, [⟨"CACHE", "CACHE", "ANSWER_FROM_CACHE", 0, 0, "HIT", now⟩], true, c1⟩
  | (none, c1) =>
    if recursion_requested then
      match recursive_lookup recServer rec with
      | (answers, rcode, trace) =>
        if answers ≠ [] ∧ rcode = 0 then
          some ⟨answers, rcode, trace, false, self.cache_store c1 now qname qtype answers⟩
        else iter_resolve self c1 now qname qtype oracle upstream fuel
    else iter_resolve self c1 now qname qtype oracle upstream fuel

/-- Whether the recursive attempt failed to produce a non-empty NOERROR answer
(timeout or NXDOMAIN exception, or a response without usable answers). -/
def recFails (rec : RecOutcome) : Prop :=
  match rec with
  | .fail _ => True
  | .ok ans rc _ => ¬(ans ≠ [] ∧ rc = 0)

/-- State component of an inner-loop outcome. -/
def InnerOut.state : InnerOut → IterState
  | .done _ _ st => st
  | .newServers _ st => st
  | .exhausted st => st

/-- Rank of a phase label, for stating that phases never regress. -/
def phaseRank (s : String) : Nat :=
  if s = "Root" then 0 else if s = "TLD" then 1 else 2

/-- Phase labels of a run shaped by the while loop: the k-th loop iteration
(0-based) contributes a block of events all labelled `step_name (min k 2)`,
because the source advances `depth = min(depth + 1, 2)` once per iteration. -/
def hopSteps : Nat → List Nat → List String
  | _, [] => []
  | d, c :: cs => List.replicate c (step_name d) ++ hopSteps (min (d + 1) 2) cs

/-- Referral used in the two-timeouts scenario: NOERROR, empty answer section,
one NS authority record and one A glue record. -/
def refMsg : Message :=
  ⟨0, [], [⟨2, some 60, ["ns1.example."]⟩], [⟨1, some 60, ["7.7.7.7"]⟩]⟩

/-- Scenario oracle: queries 0 and 1 (the first two root servers) time out,
query 2 returns the referral, and every later query times out. -/
def thirdRootOracle : Nat → QueryResult :=
  fun i => if i = 2 then .reply refMsg 1 else .timeout

/-- Referral that cycles: NOERROR, no answer, an NS authority record and a glue
address pointing back at the very server the query went to. -/
def cycMsg : Message :=
  ⟨0, [], [⟨2, some 60, ["ns.loop."]⟩], [⟨1, some 60, ["9.9.9.9"]⟩]⟩

/-- Upstream behaviour in which every single query is answered by the cyclic
referral. -/
def cycOracle : Nat → QueryResult := fun _ => .reply cycMsg 1

/-- The iterative lookup never returns, whatever iteration budget it is given:
this is how divergence of the source's unbounded `while` loop shows up in the
fuelled model. -/
def iterDiverges (self : ResolverServer) (oracle : Nat → QueryResult)
    (upstream : String → Nat → Option (List RRset)) : Prop :=
  ∀ fuel, iterative_lookup self oracle upstream fuel = none

lemma cacheGet_cachePop_self (c : Cache) (k : String × Nat) :
    cacheGet (cachePop c k) k = none := by
  induction c with
  | nil => rfl
  | cons p rest ih =>
    obtain ⟨k', e⟩ := p
    unfold cachePop
    by_cases hk : k' = k
    · simpa [hk] using ih
    · simpa [cacheGet, hk] using ih

lemma cacheGet_cacheInsert_self (c : Cache) (k : String × Nat) (e : CacheEntry) :
    cacheGet (cacheInsert c k e) k = some e := by
  simp [cacheInsert, cacheGet]

lemma cache_lookup_of_get_none {c : Cache} {qname : String} {qtype : Nat}
    (now : Int) (h : cacheGet c (cache_key qname qtype) = none) :
    cache_lookup c now qname qtype = (none, c) := by
  simp [cache_lookup, h]

lemma cacheGet_of_lookup_miss {c : Cache} {now : Int} {qname : String} {qtype : Nat}
    (h : (cache_lookup c now qname qtype).fst = none) :
    cacheGet (cache_lookup c now qname qtype).snd (cache_key qname qtype) = none := by
  cases hg : cacheGet c (cache_key qname qtype) with
  | none => simp [cache_lookup, hg, hg]
  | some entry =>
    by_cases hf : entry.fresh now
    · exfalso
      simp [cache_lookup, hg, hf] at h
    · simp [cache_lookup, hg, hf, cacheGet_cachePop_self]

end Resolver

namespace Resolver

/-- C1.  With an entry stored under `(name.lower(), type)`, `_cache_lookup`
returns the stored record sets exactly when the current time is strictly before
the entry's expiry; at or after the expiry it returns absent and that very call
pops the entry, while a fresh lookup leaves the cache unchanged (no removal
except as part of the lookup). -/
theorem cache_lookup_fresh_iff_and_lazy_eviction
    (c : Cache) (now : Int) (qname : String) (qtype : Nat) (e : CacheEntry)
    (h : cacheGet c (cache_key qname qtype) = some e) :
    ((cache_lookup c now qname qtype).fst = some e.rrsets ↔ now < e.expiry) ∧
    (e.expiry ≤ now →
      (cache_lookup c now qname qtype).fst = none ∧
      cacheGet (cache_lookup c now qname qtype).snd (cache_key qname qtype) = none) ∧
    (now < e.expiry → (cache_lookup c now qname qtype).snd = c) := by
  unfold cache_lookup
  rw [h]
  by_cases hlt : now < e.expiry
  · simp [CacheEntry.fresh, hlt]
  · simp [CacheEntry.fresh, hlt, cacheGet_cachePop_self]

/-- Closed instance of `cache_lookup_fresh_iff_and_lazy_eviction` at a concrete
cache, one fresh instant and the stale branch exercised separately below. -/
theorem cache_lookup_fresh_iff_and_lazy_eviction_witness :
    ((cache_lookup [(("example.com.", 1), ⟨[⟨1, some 60, ["1.2.3.4"]⟩], 100⟩)]
        40 "Example.COM." 1).fst = some [⟨1, some 60, ["1.2.3.4"]⟩] ↔ (40 : Int) < 100) ∧
    ((100 : Int) ≤ 40 →
      (cache_lookup [(("example.com.", 1), ⟨[⟨1, some 60, ["1.2.3.4"]⟩], 100⟩)]
        40 "Example.COM." 1).fst = none ∧
      cacheGet (cache_lookup [(("example.com.", 1), ⟨[⟨1, some 60, ["1.2.3.4"]⟩], 100⟩)]
        40 "Example.COM." 1).snd (cache_key "Example.COM." 1) = none) ∧
    ((40 : Int) < 100 →
      (cache_lookup [(("example.com.", 1), ⟨[⟨1, some 60, ["1.2.3.4"]⟩], 100⟩)]
        40 "Example.COM." 1).snd = [(("example.com.", 1), ⟨[⟨1, some 60, ["1.2.3.4"]⟩], 100⟩)]) :=
  cache_lookup_fresh_iff_and_lazy_eviction
    [(("example.com.", 1), ⟨[⟨1, some 60, ["1.2.3.4"]⟩], 100⟩)]
    40 "Example.COM." 1 ⟨[⟨1, some 60, ["1.2.3.4"]⟩], 100⟩ (by decide)

/-- C3.  `_cache_store` derives the expiry from the minimum TTL of the supplied
record sets: a minimum ≤ 0 makes the store a no-op (so a later lookup for a key
nothing else stored still reports absent), and a positive minimum `m` stores the
records with expiry `now + m`. -/
theorem cache_store_min_ttl
    (self : ResolverServer) (c : Cache) (now now' : Int) (qname : String)
    (qtype : Nat) (rrsets : List RRset) (m : Int)
    (hen : self.cache_enabled = true)
    (hm : (rrsets.filterMap RRset.ttl).min? = some m)
    (habsent : cacheGet c (cache_key qname qtype) = none) :
    (m ≤ 0 →
      self.cache_store c now qname qtype rrsets = c ∧
      (cache_lookup (self.cache_store c now qname qtype rrsets) now' qname qtype).fst = none) ∧
    (0 < m →
      cacheGet (self.cache_store c now qname qtype rrsets) (cache_key qname qtype) =
        some ⟨rrsets, now + m⟩) := by
  have hstore : self.cache_store c now qname qtype rrsets =
      (if m ≤ 0 then c else cacheInsert c (cache_key qname qtype) ⟨rrsets, now + m⟩) := by
    unfold ResolverServer.cache_store
    rw [hen, hm]
    simp
  by_cases hle : m ≤ 0
  · rw [hstore, if_pos hle]
    refine ⟨fun _ => ⟨rfl, ?_⟩, fun hlt => absurd hlt (by omega)⟩
    rw [cache_lookup_of_get_none now' habsent]
  · rw [hstore, if_neg hle]
    exact ⟨fun hle' => absurd hle' hle,
      fun _ => cacheGet_cacheInsert_self c (cache_key qname qtype) ⟨rrsets, now + m⟩⟩

/-- C4.  A query answered from the cache produces exactly one trace event, with
cache status HIT and zero recorded round-trip and cumulative time. -/
theorem resolve_cache_hit_single_event
    (self : ResolverServer) (c : Cache) (now : Int) (qname : String) (qtype : Nat)
    (rd : Bool) (rec : RecOutcome) (srv : String) (oracle : Nat → QueryResult)
    (upstream : String → Nat → Option (List RRset)) (fuel : Nat) (rs : List RRset)
    (h : (cache_lookup c now qname qtype).fst = some rs) :
    self.resolve c now qname qtype rd rec srv oracle upstream fuel =
      some ⟨rs, 0, [⟨"CACHE", "CACHE", "ANSWER_FROM_CACHE", 0, 0, "HIT", now⟩], true,
        (cache_lookup c now qname qtype).snd⟩ := by
  have hp : cache_lookup c now qname qtype =
      (some rs, (cache_lookup c now qname qtype).snd) := Prod.ext h rfl
  unfold ResolverServer.resolve
  rw [hp]

/-- Closed instance of `resolve_cache_hit_single_event` on a one-entry cache. -/
theorem resolve_cache_hit_single_event_witness :
    ResolverServer.resolve ⟨3, true, ["198.41.0.4"]⟩
        [(("a.example.", 1), ⟨[⟨1, some 60, ["1.2.3.4"]⟩], 100⟩)] 5 "a.example." 1
        false (.fail 1) "8.8.8.8" (fun _ => .timeout) (fun _ _ => none) 0 =
      some ⟨[⟨1, some 60, ["1.2.3.4"]⟩], 0,
        [⟨"CACHE", "CACHE", "ANSWER_FROM_CACHE", 0, 0, "HIT", 5⟩], true,
        (cache_lookup [(("a.example.", 1), ⟨[⟨1, some 60, ["1.2.3.4"]⟩], 100⟩)]
          5 "a.example." 1).snd⟩ :=
  resolve_cache_hit_single_event ⟨3, true, ["198.41.0.4"]⟩
    [(("a.example.", 1), ⟨[⟨1, some 60, ["1.2.3.4"]⟩], 100⟩)] 5 "a.example." 1
    false (.fail 1) "8.8.8.8" (fun _ => .timeout) (fun _ _ => none) 0
    [⟨1, some 60, ["1.2.3.4"]⟩] (by decide)

/-- C5.  When recursion is requested but the recursive attempt yields no
non-empty NOERROR answer, `resolve` does not stop there: the value returned to
the caller is exactly the iterative path's result (the recursive attempt, its
trace included, is discarded). -/
theorem resolve_recursive_failure_falls_through
    (self : ResolverServer) (c : Cache) (now : Int) (qname : String) (qtype : Nat)
    (rec : RecOutcome) (srv : String) (oracle : Nat → QueryResult)
    (upstream : String → Nat → Option (List RRset)) (fuel : Nat)
    (hmiss : (cache_lookup c now qname qtype).fst = none)
    (hfail : recFails rec) :
    self.resolve c now qname qtype true rec srv oracle upstream fuel =
      iter_resolve self (cache_lookup c now qname qtype).snd now qname qtype
        oracle upstream fuel := by
  have hp : cache_lookup c now qname qtype =
      (none, (cache_lookup c now qname qtype).snd) := Prod.ext hmiss rfl
  unfold ResolverServer.resolve
  rw [hp]
  cases rec with
  | fail rtt => simp [recursive_lookup]
  | ok ans rc rtt =>
    simp only [recursive_lookup, if_true]
    rw [if_neg hfail]

/-- Closed instance of `resolve_recursive_failure_falls_through` with a timed-out
recursive attempt. -/
theorem resolve_recursive_failure_falls_through_witness :
    ResolverServer.resolve ⟨3, true, ["198.41.0.4"]⟩ [] 5 "a.example." 1 true
        (.fail 2) "8.8.8.8" (fun _ => .timeout) (fun _ _ => none) 1 =
      iter_resolve ⟨3, true, ["198.41.0.4"]⟩
        (cache_lookup [] 5 "a.example." 1).snd 5 "a.example." 1
        (fun _ => .timeout) (fun _ _ => none) 1 :=
  resolve_recursive_failure_falls_through ⟨3, true, ["198.41.0.4"]⟩ [] 5 "a.example." 1
    (.fail 2) "8.8.8.8" (fun _ => .timeout) (fun _ _ => none) 1 (by decide) trivial

/-- C10.  Glue extraction accepts both A (type 1) and AAAA (type 28) additional
records, so IPv6 addresses can enter the next candidate set, while the
secondary lookup for unglued NS names consults the upstream resolver only with
A-type queries: its result depends only on the upstream's behaviour at
query type 1. -/
theorem glue_accepts_aaaa_and_secondary_lookups_are_a_only
    (msg : Message) (rs : RRset) (h1 : rs ∈ msg.additional)
    (h2 : rs.rdtype = 1 ∨ rs.rdtype = 28) (a : String) (ha : a ∈ rs.items)
    (u v : String → Nat → Option (List RRset)) (huv : ∀ n, u n 1 = v n 1)
    (names : List String) :
    a ∈ extract_glue_ips msg ∧
      resolve_ns_addresses u names = resolve_ns_addresses v names := by
  constructor
  · unfold extract_glue_ips
    rw [List.mem_flatMap]
    exact ⟨rs, h1, by rw [if_pos h2]; exact ha⟩
  · unfold resolve_ns_addresses
    congr 1
    funext n
    rw [huv n]

/-- Closed instance of `glue_accepts_aaaa_and_secondary_lookups_are_a_only`: an
AAAA glue record's address is extracted, and two upstreams agreeing on A-type
queries resolve NS names identically. -/
theorem glue_accepts_aaaa_and_secondary_lookups_are_a_only_witness :
    "2001:db8::1" ∈ extract_glue_ips
        ⟨0, [], [⟨2, some 60, ["ns1.example."]⟩], [⟨28, some 60, ["2001:db8::1"]⟩]⟩ ∧
      resolve_ns_addresses (fun _ _ => some [⟨1, some 60, ["9.9.9.9"]⟩])
          ["ns1.example."] =
        resolve_ns_addresses (fun _ t => if t = 1 then some [⟨1, some 60, ["9.9.9.9"]⟩] else none)
          ["ns1.example."] :=
  glue_accepts_aaaa_and_secondary_lookups_are_a_only
    ⟨0, [], [⟨2, some 60, ["ns1.example."]⟩], [⟨28, some 60, ["2001:db8::1"]⟩]⟩
    ⟨28, some 60, ["2001:db8::1"]⟩ (by decide) (by decide) "2001:db8::1" (by decide)
    (fun _ _ => some [⟨1, some 60, ["9.9.9.9"]⟩])
    (fun _ t => if t = 1 then some [⟨1, some 60, ["9.9.9.9"]⟩] else none)
    (fun _ => rfl) ["ns1.example."]

lemma phaseRank_step_name (d : Nat) : phaseRank (step_name d) = min d 2 := by
  match d with
  | 0 => decide
  | 1 => decide
  | n + 2 =>
    have h1 : step_name (n + 2) = "Authoritative" := by simp [step_name]
    rw [h1]
    have h2 : phaseRank "Authoritative" = 2 := by decide
    rw [h2]
    omega

lemma step_name_cases (d : Nat) :
    step_name d = "Root" ∨ step_name d = "TLD" ∨ step_name d = "Authoritative" := by
  match d with
  | 0 => exact Or.inl rfl
  | 1 => exact Or.inr (Or.inl rfl)
  | n + 2 => exact Or.inr (Or.inr (by simp [step_name]))

lemma chain'_replicate_of_refl {α : Type} (R : α → α → Prop) (a : α) (h : R a a) :
    ∀ n, List.Chain' R (List.replicate n a) := by
  intro n
  induction n with
  | zero => simp
  | succ m ih =>
    cases m with
    | zero => simp
    | succ k =>
      rw [List.replicate_succ, List.replicate_succ]
      exact List.Chain'.cons h (by rw [← List.replicate_succ]; exact ih)

lemma map_eq_replicate_of_forall {α β : Type} (f : α → β) (x : β) :
    ∀ l : List α, (∀ e ∈ l, f e = x) → l.map f = List.replicate l.length x := by
  intro l
  induction l with
  | nil => intro _; rfl
  | cons e rest ih =>
    intro h
    rw [List.map_cons, List.length_cons, List.replicate_succ, h e (by simp),
      ih (fun e' he' => h e' (by simp [he']))]

lemma hopSteps_chain (counts : List Nat) :
    ∀ d : Nat,
      List.Chain' (fun a b => phaseRank a ≤ phaseRank b) (hopSteps d counts) ∧
      ∀ s ∈ hopSteps d counts, min d 2 ≤ phaseRank s := by
  induction counts with
  | nil =>
    intro d
    simp [hopSteps]
  | cons c cs ih =>
    intro d
    have ih' := ih (min (d + 1) 2)
    constructor
    · rw [hopSteps, List.chain'_append]
      refine ⟨chain'_replicate_of_refl (fun a b => phaseRank a ≤ phaseRank b)
        (step_name d) le_rfl c, ih'.1, ?_⟩
      intro x hx y hy
      have hxl : x ∈ List.replicate c (step_name d) := List.mem_of_mem_getLast? hx
      have hyl : y ∈ hopSteps (min (d + 1) 2) cs := List.mem_of_mem_head? hy
      have hx2 : x = step_name d := List.eq_of_mem_replicate hxl
      have hy2 := ih'.2 y hyl
      rw [hx2, phaseRank_step_name]
      omega
    · intro s hs
      rw [hopSteps, List.mem_append] at hs
      rcases hs with hs | hs
      · rw [List.eq_of_mem_replicate hs, phaseRank_step_name]
      · have := ih'.2 s hs
        omega

lemma hopSteps_mem_labels (counts : List Nat) :
    ∀ d : Nat, ∀ s ∈ hopSteps d counts,
      s = "Root" ∨ s = "TLD" ∨ s = "Authoritative" := by
  induction counts with
  | nil => intro d s hs; simp [hopSteps] at hs
  | cons c cs ih =>
    intro d s hs
    rw [hopSteps, List.mem_append] at hs
    rcases hs with hs | hs
    · rw [List.eq_of_mem_replicate hs]
      exact step_name_cases d
    · exact ih _ s hs

lemma iterInner_trace (self : ResolverServer) (oracle : Nat → QueryResult)
    (upstream : String → Nat → Option (List RRset)) (sn : String) :
    ∀ (servers : List String) (st : IterState),
      ∃ evs, (iterInner self oracle upstream sn servers st).state.trace = st.trace ++ evs ∧
        ∀ e ∈ evs, e.step = sn := by
  intro servers
  induction servers with
  | nil =>
    intro st
    exact ⟨[], by simp [iterInner, InnerOut.state], by simp⟩
  | cons server rest ih =>
    intro st
    simp only [iterInner]
    cases horacle : oracle st.qi with
    | timeout =>
      obtain ⟨evs, h1, h2⟩ := ih ⟨st.qi + 1, st.elapsed + self.timeout, st.trace, st.last_rcode⟩
      exact ⟨evs, h1, h2⟩
    | reply msg rtt =>
      simp only []
      split
      · exact ⟨[⟨server, sn, summarize msg, rtt, st.elapsed + rtt, "MISS", st.elapsed + rtt⟩],
          by simp [InnerOut.state], by simp⟩
      · split
        · exact ⟨[⟨server, sn, summarize msg, rtt, st.elapsed + rtt, "MISS", st.elapsed + rtt⟩],
            by simp [InnerOut.state], by simp⟩
        · split
          · exact ⟨[⟨server, sn, summarize msg, rtt, st.elapsed + rtt, "MISS", st.elapsed + rtt⟩],
              by simp [InnerOut.state], by simp⟩
          · split
            · obtain ⟨evs, h1, h2⟩ := ih ⟨st.qi + 1, st.elapsed + rtt,
                st.trace ++ [⟨server, sn, summarize msg, rtt, st.elapsed + rtt, "MISS",
                  st.elapsed + rtt⟩], msg.rcode⟩
              refine ⟨⟨server, sn, summarize msg, rtt, st.elapsed + rtt, "MISS",
                  st.elapsed + rtt⟩ :: evs, ?_, ?_⟩
              · rw [h1]
                simp
              · intro e he
                rcases List.mem_cons.mp he with he | he
                · rw [he]
                · exact h2 e he
            · split
              · exact ⟨[⟨server, sn, summarize msg, rtt, st.elapsed + rtt, "MISS",
                  st.elapsed + rtt⟩], by simp [InnerOut.state], by simp⟩
              · obtain ⟨evs, h1, h2⟩ := ih ⟨st.qi + 1, st.elapsed + rtt,
                  st.trace ++ [⟨server, sn, summarize msg, rtt, st.elapsed + rtt, "MISS",
                    st.elapsed + rtt⟩], msg.rcode⟩
                refine ⟨⟨server, sn, summarize msg, rtt, st.elapsed + rtt, "MISS",
                    st.elapsed + rtt⟩ :: evs, ?_, ?_⟩
                · rw [h1]
                  simp
                · intro e he
                  rcases List.mem_cons.mp he with he | he
                  · rw [he]
                  · exact h2 e he

lemma iterLoop_trace_shape (self : ResolverServer) (oracle : Nat → QueryResult)
    (upstream : String → Nat → Option (List RRset)) :
    ∀ (fuel : Nat) (servers : List String) (depth : Nat) (st : IterState)
      (a : List RRset) (rc : Nat) (st' : IterState),
      iterLoop self oracle upstream fuel servers depth st = some (a, rc, st') →
      ∃ evs counts, st'.trace = st.trace ++ evs ∧
        evs.map TraceEvent.step = hopSteps depth counts := by
  intro fuel
  induction fuel with
  | zero =>
    intro _ _ _ _ _ _ h
    cases h
  | succ n ih =>
    intro servers depth st a rc st' h
    simp only [iterLoop] at h
    split at h
    · cases h
      exact ⟨[], [], by simp, rfl⟩
    · split at h
      · rename_i answers rcode st1 heq
        cases h
        obtain ⟨evs, h1, h2⟩ := iterInner_trace self oracle upstream (step_name depth) servers st
        rw [heq] at h1
        refine ⟨evs, [evs.length], h1, ?_⟩
        rw [hopSteps, hopSteps, List.append_nil]
        exact map_eq_replicate_of_forall _ _ evs h2
      · rename_i servers1 st1 heq
        obtain ⟨evs1, h1, h2⟩ := iterInner_trace self oracle upstream (step_name depth) servers st
        rw [heq] at h1
        simp only [InnerOut.state] at h1
        obtain ⟨evs2, counts, h3, h4⟩ := ih servers1 (min (depth + 1) 2) st1 a rc st' h
        refine ⟨evs1 ++ evs2, evs1.length :: counts, ?_, ?_⟩
        · rw [h3, h1, List.append_assoc]
        · rw [List.map_append, hopSteps, h4,
            map_eq_replicate_of_forall _ _ evs1 h2]
      · rename_i st1 heq
        cases h
        obtain ⟨evs, h1, h2⟩ := iterInner_trace self oracle upstream (step_name depth) servers st
        rw [heq] at h1
        refine ⟨evs, [evs.length], h1, ?_⟩
        rw [hopSteps, hopSteps, List.append_nil]
        exact map_eq_replicate_of_forall _ _ evs h2

/-- C6.  Along any completed iterative lookup, the trace's phase labels follow
the while loop's depth counter: the k-th loop iteration contributes a block of
events labelled `step_name (min k 2)` (so Root, then TLD, then Authoritative,
and Authoritative for every later hop — the depth caps at 2), the label
sequence never regresses, and only those three labels ever occur. -/
theorem iterative_phase_monotone_capped
    (self : ResolverServer) (oracle : Nat → QueryResult)
    (upstream : String → Nat → Option (List RRset)) (fuel : Nat)
    (r : List RRset × Nat × IterState)
    (h : iterative_lookup self oracle upstream fuel = some r) :
    (∃ counts : List Nat, r.2.2.trace.map TraceEvent.step = hopSteps 0 counts) ∧
    List.Chain' (fun a b => phaseRank a ≤ phaseRank b)
      (r.2.2.trace.map TraceEvent.step) ∧
    ∀ s ∈ r.2.2.trace.map TraceEvent.step,
      s = "Root" ∨ s = "TLD" ∨ s = "Authoritative" := by
  obtain ⟨a, rc, st'⟩ := r
  obtain ⟨evs, counts, h1, h2⟩ :=
    iterLoop_trace_shape self oracle upstream fuel self.root_servers 0
      ⟨0, 0, [], 2⟩ a rc st' h
  simp only [List.nil_append] at h1
  have htr : st'.trace.map TraceEvent.step = hopSteps 0 counts := by rw [h1, h2]
  refine ⟨⟨counts, htr⟩, ?_, ?_⟩
  · rw [htr]
    exact (hopSteps_chain counts 0).1
  · rw [htr]
    exact hopSteps_mem_labels counts 0

/-- Closed instance of `iterative_phase_monotone_capped` on a one-hop run that
is answered by the first root server. -/
theorem iterative_phase_monotone_capped_witness :
    (∃ counts : List Nat,
      (([⟨1, some 60, ["1.2.3.4"]⟩], 0,
          (⟨1, 2, [⟨"198.41.0.4", "Root", "ANSWER", 2, 2, "MISS", 2⟩], 0⟩ : IterState)) :
        List RRset × Nat × IterState).2.2.trace.map TraceEvent.step = hopSteps 0 counts) ∧
    List.Chain' (fun a b => phaseRank a ≤ phaseRank b)
      ((([⟨1, some 60, ["1.2.3.4"]⟩], 0,
          (⟨1, 2, [⟨"198.41.0.4", "Root", "ANSWER", 2, 2, "MISS", 2⟩], 0⟩ : IterState)) :
        List RRset × Nat × IterState).2.2.trace.map TraceEvent.step) ∧
    ∀ s ∈ (([⟨1, some 60, ["1.2.3.4"]⟩], 0,
          (⟨1, 2, [⟨"198.41.0.4", "Root", "ANSWER", 2, 2, "MISS", 2⟩], 0⟩ : IterState)) :
        List RRset × Nat × IterState).2.2.trace.map TraceEvent.step,
      s = "Root" ∨ s = "TLD" ∨ s = "Authoritative" :=
  iterative_phase_monotone_capped ⟨3, true, ["198.41.0.4"]⟩
    (fun _ => .reply ⟨0, [⟨1, some 60, ["1.2.3.4"]⟩], [], []⟩ 2) (fun _ _ => none) 1
    ([⟨1, some 60, ["1.2.3.4"]⟩], 0,
      ⟨1, 2, [⟨"198.41.0.4", "Root", "ANSWER", 2, 2, "MISS", 2⟩], 0⟩) (by decide)

lemma iterInner_done_nx (self : ResolverServer) (oracle : Nat → QueryResult)
    (upstream : String → Nat → Option (List RRset)) (sn : String) :
    ∀ (servers : List String) (st : IterState) (a : List RRset) (rc : Nat)
      (st1 : IterState),
      iterInner self oracle upstream sn servers st = .done a rc st1 → rc = 3 → a = [] := by
  intro servers
  induction servers with
  | nil =>
    intro st a rc st1 h
    cases h
  | cons server rest ih =>
    intro st a rc st1 h h3
    simp only [iterInner] at h
    cases horacle : oracle st.qi with
    | timeout =>
      rw [horacle] at h
      exact ih _ _ _ _ h h3
    | reply msg rtt =>
      rw [horacle] at h
      simp only [] at h
      split at h
      · cases h
        exact absurd h3 (by decide)
      · split at h
        · cases h
          rfl
        · split at h
          · cases h
          · split at h
            · exact ih _ _ _ _ h h3
            · split at h
              · cases h
              · exact ih _ _ _ _ h h3

lemma iterLoop_nx_empty (self : ResolverServer) (oracle : Nat → QueryResult)
    (upstream : String → Nat → Option (List RRset)) :
    ∀ (fuel : Nat) (servers : List String) (depth : Nat) (st : IterState)
      (a : List RRset) (rc : Nat) (st' : IterState),
      iterLoop self oracle upstream fuel servers depth st = some (a, rc, st') →
      rc = 3 → a = [] := by
  intro fuel
  induction fuel with
  | zero =>
    intro _ _ _ _ _ _ h
    cases h
  | succ n ih =>
    intro servers depth st a rc st' h h3
    simp only [iterLoop] at h
    split at h
    · cases h
      rfl
    · split at h
      · rename_i heq
        cases h
        exact iterInner_done_nx self oracle upstream _ _ _ _ _ _ heq h3
      · exact ih _ _ _ _ _ _ h h3
      · cases h
        rfl

lemma iter_resolve_nx (self : ResolverServer) (c : Cache) (now : Int)
    (qname : String) (qtype : Nat) (oracle : Nat → QueryResult)
    (upstream : String → Nat → Option (List RRset)) (fuel : Nat) (out : ResolveOut)
    (h : iter_resolve self c now qname qtype oracle upstream fuel = some out)
    (h3 : out.rcode = 3) :
    out.answers = [] ∧ out.cache = c := by
  unfold iter_resolve at h
  cases hit : iterative_lookup self oracle upstream fuel with
  | none =>
    rw [hit] at h
    cases h
  | some r =>
    obtain ⟨answers, rcode, st⟩ := r
    rw [hit] at h
    cases h
    have hrc : rcode = 3 := h3
    have hans : answers = [] :=
      iterLoop_nx_empty self oracle upstream fuel self.root_servers 0 ⟨0, 0, [], 2⟩
        answers rcode st hit hrc
    constructor
    · exact hans
    · show (if answers ≠ [] ∧ rcode = 0 then _ else c) = c
      rw [if_neg]
      simp [hans]

/-- C2.  A resolution that ends NXDOMAIN (rcode 3) — whether the recursive
attempt, the iterative walk, or both were involved — returns no records and
stores nothing: looking the key up in the resulting cache reports absent
(nothing else having stored it, since the entry resolution only starts after a
cache miss). -/
theorem resolve_nxdomain_not_cached
    (self : ResolverServer) (c : Cache) (now now' : Int) (qname : String)
    (qtype : Nat) (rd : Bool) (rec : RecOutcome) (srv : String)
    (oracle : Nat → QueryResult) (upstream : String → Nat → Option (List RRset))
    (fuel : Nat) (out : ResolveOut)
    (h : self.resolve c now qname qtype rd rec srv oracle upstream fuel = some out)
    (h3 : out.rcode = 3) :
    out.answers = [] ∧ (cache_lookup out.cache now' qname qtype).fst = none := by
  unfold ResolverServer.resolve at h
  cases hq : cache_lookup c now qname qtype with
  | mk fst c1 =>
    rw [hq] at h
    cases fst with
    | some cached =>
      cases h
      have h5 : (0 : Nat) = 3 := h3
      exact absurd h5 (by decide)
    | none =>
      have hmiss : (cache_lookup c now qname qtype).fst = none := by rw [hq]
      have hkey : cacheGet c1 (cache_key qname qtype) = none := by
        have h2 := cacheGet_of_lookup_miss hmiss
        rwa [hq] at h2
      have main : iter_resolve self c1 now qname qtype oracle upstream fuel = some out := by
        cases rd with
        | false => exact h
        | true =>
          cases rec with
          | fail rtt => simpa [recursive_lookup] using h
          | ok ans rc rtt =>
            simp only [recursive_lookup, if_true] at h
            split at h
            · rename_i hcond
              obtain ⟨-, h0⟩ := hcond
              cases h
              have h5 : rc = 3 := h3
              exact absurd h5 (by omega)
            · exact h
      obtain ⟨hans, hcache⟩ :=
        iter_resolve_nx self c1 now qname qtype oracle upstream fuel out main h3
      refine ⟨hans, ?_⟩
      rw [hcache, cache_lookup_of_get_none now' hkey]

/-- Closed instance of `resolve_nxdomain_not_cached`: an NXDOMAIN reply from the
first root server yields no records and an absent cache entry. -/
theorem resolve_nxdomain_not_cached_witness :
    (ResolverServer.resolve ⟨3, true, ["198.41.0.4"]⟩ [] 5 "nope.example." 1 false
        (.fail 1) "8.8.8.8" (fun _ => .reply ⟨3, [], [], []⟩ 1) (fun _ _ => none) 1
        |>.getD ⟨[], 0, [], false, []⟩).answers = [] ∧
      (cache_lookup
        (ResolverServer.resolve ⟨3, true, ["198.41.0.4"]⟩ [] 5 "nope.example." 1 false
          (.fail 1) "8.8.8.8" (fun _ => .reply ⟨3, [], [], []⟩ 1) (fun _ _ => none) 1
          |>.getD ⟨[], 0, [], false, []⟩).cache 6 "nope.example." 1).fst = none :=
  resolve_nxdomain_not_cached ⟨3, true, ["198.41.0.4"]⟩ [] 5 6 "nope.example." 1
    false (.fail 1) "8.8.8.8" (fun _ => .reply ⟨3, [], [], []⟩ 1) (fun _ _ => none) 1
    ((ResolverServer.resolve ⟨3, true, ["198.41.0.4"]⟩ [] 5 "nope.example." 1 false
      (.fail 1) "8.8.8.8" (fun _ => .reply ⟨3, [], [], []⟩ 1) (fun _ _ => none) 1
      ).getD ⟨[], 0, [], false, []⟩) (by decide) (by decide)

/-- Closed instance of `cache_store_min_ttl`: a record set whose minimum TTL is
0 is not stored and stays absent from the cache. -/
theorem cache_store_min_ttl_witness :
    ((0 : Int) ≤ 0 →
      ResolverServer.cache_store ⟨3, true, []⟩ [] 50 "a.example." 1
          [⟨1, some 0, ["1.2.3.4"]⟩, ⟨1, some 7, ["5.6.7.8"]⟩] = [] ∧
      (cache_lookup (ResolverServer.cache_store ⟨3, true, []⟩ [] 50 "a.example." 1
          [⟨1, some 0, ["1.2.3.4"]⟩, ⟨1, some 7, ["5.6.7.8"]⟩]) 51 "a.example." 1).fst = none) ∧
    ((0 : Int) < 0 →
      cacheGet (ResolverServer.cache_store ⟨3, true, []⟩ [] 50 "a.example." 1
          [⟨1, some 0, ["1.2.3.4"]⟩, ⟨1, some 7, ["5.6.7.8"]⟩]) (cache_key "a.example." 1) =
        some ⟨[⟨1, some 0, ["1.2.3.4"]⟩, ⟨1, some 7, ["5.6.7.8"]⟩], 50 + 0⟩) :=
  cache_store_min_ttl ⟨3, true, []⟩ [] 50 51 "a.example." 1
    [⟨1, some 0, ["1.2.3.4"]⟩, ⟨1, some 7, ["5.6.7.8"]⟩] 0 rfl (by decide) rfl

/-- C7 counterexample.  With three root servers of which only the third
responds (with a referral), the claim expects two TIMEOUT/skip trace events
before the referral event.  In the code a timed-out server logs nothing
(`except ...: continue`), so the completed run's entire trace is the single
referral event: no TIMEOUT event exists. -/
theorem third_root_referral_trace_counterexample :
    iterative_lookup ⟨3, true, ["r1", "r2", "r3"]⟩ thirdRootOracle (fun _ _ => none) 2 =
      some ([], 0,
        ⟨4, 10, [⟨"r3", "Root", "REFERRAL ns1.example.", 1, 7, "MISS", 7⟩], 0⟩) := by
  decide

/-- C7 amended.  When the first two candidate servers time out and the third
replies with a glue-carrying referral, the root phase contributes exactly one
trace event — the referral; the timeouts are skipped silently — and the loop
moves to the next phase with candidate set exactly the glue addresses
extracted from that referral response. -/
theorem referral_after_silent_timeouts
    (tv : Int) (en : Bool) (roots : List String) (s1 s2 s3 : String)
    (oracle : Nat → QueryResult) (upstream : String → Nat → Option (List RRset))
    (m : Message) (rtt : Int) (fuel : Nat)
    (h0 : oracle 0 = .timeout) (h1 : oracle 1 = .timeout)
    (h2 : oracle 2 = .reply m rtt) (hrc : m.rcode = 0) (hans : m.answer = [])
    (hglue : extract_glue_ips m ≠ []) :
    iterLoop ⟨tv, en, roots⟩ oracle upstream (fuel + 1) [s1, s2, s3] 0 ⟨0, 0, [], 2⟩ =
      iterLoop ⟨tv, en, roots⟩ oracle upstream fuel (extract_glue_ips m) 1
        ⟨3, tv + tv + rtt,
          [⟨s3, "Root", summarize m, rtt, tv + tv + rtt, "MISS", tv + tv + rtt⟩], 0⟩ := by
  have hinner : iterInner ⟨tv, en, roots⟩ oracle upstream (step_name 0)
        [s1, s2, s3] ⟨0, 0, [], 2⟩ =
      .newServers (extract_glue_ips m)
        ⟨3, tv + tv + rtt,
          [⟨s3, "Root", summarize m, rtt, tv + tv + rtt, "MISS", tv + tv + rtt⟩], 0⟩ := by
    simp [iterInner, step_name, h0, h1, h2, hrc, hans, hglue, add_assoc]
  simp only [iterLoop]
  rw [if_neg (by simp : ¬([s1, s2, s3] : List String) = []), hinner]
  norm_num

/-- Closed instance of `referral_after_silent_timeouts` on the concrete
two-timeouts-then-referral scenario. -/
theorem referral_after_silent_timeouts_witness :
    iterLoop ⟨3, true, ["r1", "r2", "r3"]⟩ thirdRootOracle (fun _ _ => none) 2
        ["r1", "r2", "r3"] 0 ⟨0, 0, [], 2⟩ =
      iterLoop ⟨3, true, ["r1", "r2", "r3"]⟩ thirdRootOracle (fun _ _ => none) 1
        (extract_glue_ips refMsg) 1
        ⟨3, 3 + 3 + 1,
          [⟨"r3", "Root", summarize refMsg, 1, 3 + 3 + 1, "MISS", 3 + 3 + 1⟩], 0⟩ :=
  referral_after_silent_timeouts 3 true ["r1", "r2", "r3"] "r1" "r2" "r3"
    thirdRootOracle (fun _ _ => none) refMsg 1 1 rfl rfl rfl rfl rfl (by decide)

lemma cyc_loop_runs_forever :
    ∀ (fuel depth : Nat) (st : IterState),
      iterLoop ⟨3, true, ["9.9.9.9"]⟩ cycOracle (fun _ _ => none)
        fuel ["9.9.9.9"] depth st = none := by
  intro fuel
  induction fuel with
  | zero => intro depth st; rfl
  | succ n ih =>
    intro depth st
    have hinner : iterInner ⟨3, true, ["9.9.9.9"]⟩ cycOracle (fun _ _ => none)
        (step_name depth) ["9.9.9.9"] st =
        .newServers ["9.9.9.9"] ⟨st.qi + 1, st.elapsed + 1,
          st.trace ++ [⟨"9.9.9.9", step_name depth, "REFERRAL ns.loop.", 1,
            st.elapsed + 1, "MISS", st.elapsed + 1⟩], 0⟩ := rfl
    simp only [iterLoop]
    rw [if_neg (by simp : ¬(["9.9.9.9"] : List String) = []), hinner]
    exact ih _ _

/-- C9 counterexample.  A referral chain that cycles back to its own candidate
set (every response is a referral whose glue is the same address) makes
`_iterative_lookup` loop forever: the run returns for no fuel, i.e. the source
performs unboundedly many server queries. -/
theorem iterative_referral_cycle_diverges :
    iterDiverges ⟨3, true, ["9.9.9.9"]⟩ cycOracle (fun _ _ => none) := by
  intro fuel
  exact cyc_loop_runs_forever fuel 0 ⟨0, 0, [], 2⟩

lemma iterInner_no_new (self : ResolverServer) (oracle : Nat → QueryResult)
    (upstream : String → Nat → Option (List RRset)) (sn : String)
    (h : ∀ i msg rtt, oracle i = .reply msg rtt →
      extract_glue_ips msg = [] ∧
      resolve_ns_addresses upstream (extract_ns_names msg) = []) :
    ∀ (servers : List String) (st : IterState) (s' : List String) (st1 : IterState),
      iterInner self oracle upstream sn servers st ≠ .newServers s' st1 := by
  intro servers
  induction servers with
  | nil =>
    intro st s' st1 hc
    cases hc
  | cons server rest ih =>
    intro st s' st1 hc
    simp only [iterInner] at hc
    cases horacle : oracle st.qi with
    | timeout =>
      rw [horacle] at hc
      exact ih _ _ _ hc
    | reply msg rtt =>
      rw [horacle] at hc
      obtain ⟨hg, hr⟩ := h _ _ _ horacle
      simp only [] at hc
      split at hc
      · cases hc
      · split at hc
        · cases hc
        · split at hc
          · rename_i hglue
            exact absurd hg hglue
          · split at hc
            · exact ih _ _ _ hc
            · split at hc
              · rename_i hips
                exact absurd hr hips
              · exact ih _ _ _ hc

/-- C9 amended.  The loop body itself is bounded: whenever the upstream
behaviour never hands back a usable referral (no glue and no resolvable NS
names on any reply), one pass over the candidate list settles the lookup —
a single unit of loop fuel suffices.  Unbounded behaviour arises only from
referral chains that keep supplying fresh candidate sets, as in the cyclic
counterexample. -/
theorem iterative_terminates_without_new_candidates
    (self : ResolverServer) (oracle : Nat → QueryResult)
    (upstream : String → Nat → Option (List RRset))
    (h : ∀ i msg rtt, oracle i = .reply msg rtt →
      extract_glue_ips msg = [] ∧
      resolve_ns_addresses upstream (extract_ns_names msg) = []) :
    ∃ r, iterative_lookup self oracle upstream 1 = some r := by
  show ∃ r, iterLoop self oracle upstream (0 + 1) self.root_servers 0 ⟨0, 0, [], 2⟩ = some r
  by_cases hroot : self.root_servers = []
  · exact ⟨([], 2, ⟨0, 0, [], 2⟩), by simp [iterLoop, hroot]⟩
  · cases hinner : iterInner self oracle upstream (step_name 0) self.root_servers
      ⟨0, 0, [], 2⟩ with
    | done a rc st1 =>
      exact ⟨(a, rc, st1), by simp [iterLoop, hroot, hinner]⟩
    | newServers s' st1 =>
      exact absurd hinner (iterInner_no_new self oracle upstream _ h _ _ _ _)
    | exhausted st1 =>
      exact ⟨([], st1.last_rcode, st1), by simp [iterLoop, hroot, hinner]⟩

/-- Closed instance of `iterative_terminates_without_new_candidates`: when every
query times out, one unit of fuel settles the lookup. -/
theorem iterative_terminates_without_new_candidates_witness :
    ∃ r, iterative_lookup ⟨3, true, ["a", "b"]⟩ (fun _ => .timeout)
      (fun _ _ => none) 1 = some r :=
  iterative_terminates_without_new_candidates ⟨3, true, ["a", "b"]⟩
    (fun _ => .timeout) (fun _ _ => none) (fun _ _ _ hx => nomatch hx)

end Resolver

/-- C8 counterexample.  On this malformed (truncated) input the decoder does
not make the affected field group empty: it returns the non-empty answer list
accumulated before the truncation point.  (The other half of the claim — that
decoding never raises — is what the fallback branches of `parse_response`
model, and holds.) -/
theorem parse_truncated_partial_counterexample :
    Wire.parse_response truncatedTwoAnswers = (["1.2.3.4"], []) ∧
      Wire.parse_response truncatedTwoAnswers ≠ ([], []) := by
  decide

/-- C8 amended.  Decoding is total — every byte string yields a pair of record
lists rather than an exception — and input too short to hold the 12-byte
header decodes to empty record lists; input that becomes malformed later
yields exactly the records accumulated before the failure point (which the
counterexample shows can be non-empty), never an abort. -/
theorem parse_short_header_empty (d : Wire.Bytes) (h : d.length < 12) :
    Wire.parse_response d = ([], []) := by
  have h10 : Wire.read16 d 10 = none := by
    have h11 : d.get? 11 = none := List.get?_eq_none.mpr (by omega)
    unfold Wire.read16
    rw [h11]
    cases d.get? 10 <;> rfl
  unfold Wire.parse_response
  rw [h10]
  cases Wire.read16 d 6 <;> cases Wire.read16 d 8 <;> rfl

/-- Closed instance of `parse_short_header_empty` on an 8-byte fragment. -/
theorem parse_short_header_empty_witness :
    Wire.parse_response [0, 0, 0, 0, 0, 0, 0, 1] = ([], []) :=
  parse_short_header_empty [0, 0, 0, 0, 0, 0, 0, 1] (by decide)


